import Mathlib

/-!
# go-skeleton-lib: the REST bindings

A shallow embedding of `rest/nethttp.go` (the `net/http` binding) and `rest/echo.go`
(the `labstack/echo` binding), and the properties of the method dispatcher, the
middleware chain, the response encoder and the ancestor-id extraction.

Conventions of the embedding

* A Go `string` and a Go `[]byte` are both sequences of bytes, so both are `List UInt8`;
  `len` is `List.length`, `s[i:]` is `sliceFrom`, and `string(b)` on a `[]byte` is the
  identity.  A string literal of the program is written `goStr "..."`.
* The business logic (`calavera.ResourceHandler`), the middleware
  (`calavera.Middleware`) and the path tree (`pathHandler`) are collaborators whose code
  is not part of these files.  They are arbitrary state transformers over a state `σ`
  that the embedding threads through every call, in the order the Go code calls them.
* The `http.ResponseWriter` is a recorder of the status code and of the body written.
  The writer and the `*http.Request` are handed to every middleware, which may write
  to the one and change the other; both are threaded through the middleware chain.
* A Go `int` is an `Int`; a run-time panic is `none`.
-/

namespace Rest

/-! ## Go values -/

/-- A Go `string`: an immutable sequence of bytes. -/
abbrev GoString := List UInt8

/-- A string literal of the program, as its UTF-8 bytes. -/
def goStr (s : String) : GoString := s.data.flatMap String.utf8EncodeChar

/-- A Go `error`: a value with an `Error() string` method. -/
structure GoError where
  Error : GoString
deriving DecidableEq, Repr

/-- The slice expression `s[i:]`: it panics unless `0 ≤ i ≤ len(s)`. -/
def sliceFrom (s : GoString) (i : Int) : Option GoString :=
  if 0 ≤ i ∧ i ≤ (s.length : Int) then some (s.drop i.toNat) else none

namespace errors

/-- The function `errors.New`. -/
def New (text : GoString) : GoError := ⟨text⟩

end errors

namespace http

/-- The constant `http.StatusOK`. -/
abbrev StatusOK : Int := 200
/-- The constant `http.StatusBadRequest`. -/
abbrev StatusBadRequest : Int := 400
/-- The constant `http.StatusNotFound`. -/
abbrev StatusNotFound : Int := 404
/-- The constant `http.StatusMethodNotAllowed`. -/
abbrev StatusMethodNotAllowed : Int := 405
/-- The constant `http.StatusInternalServerError`. -/
abbrev StatusInternalServerError : Int := 500

end http

/-! ## The `calavera` interfaces -/

/-- The type `calavera.ResourceID`, a string. -/
abbrev ResourceID := GoString

/-- The type `calavera.Payload`, a byte slice. -/
abbrev Payload := List UInt8

/-- The type `calavera.QueryParameters`, the `url.Values` multimap of the query string. -/
abbrev QueryParameters := List (GoString × List GoString)

namespace calavera

/-- Modelled from the spec: the value `calavera.EmptyBody` is declared outside these
files; the spec calls it the empty body, so it is the payload of no bytes. -/
def EmptyBody : Payload := []

end calavera

/-- What every capability of a handler and the dispatcher return:
`(code int, body Payload, err error)`. -/
abbrev Result := Int × Payload × Option GoError

/-- The interface `calavera.ResourceHandler`.  Each capability may read and change the
state `σ` of the business logic. -/
structure ResourceHandler (σ : Type) where
  Options : σ → Result × σ
  Post : List ResourceID → Payload → σ → Result × σ
  Get : ResourceID → List ResourceID → σ → Result × σ
  GetMany : List ResourceID → QueryParameters → σ → Result × σ
  Put : ResourceID → List ResourceID → Payload → σ → Result × σ
  Delete : ResourceID → List ResourceID → σ → Result × σ

/-- The part of `*http.Request` that the binding reads: `r.Method`, `r.URL.Path`,
the bytes of `r.Body` and `r.URL.Query()`. -/
structure Request where
  Method : GoString
  Path : GoString
  Body : Payload
  Query : QueryParameters
deriving DecidableEq, Repr

/-- The type `pathHandler` of the path tree, which is defined in another file of the
package.  The binding uses only its method `findHandler`, which is taken as a parameter:
for a path it returns the handler bound to it (`nil`, here `none`, when there is none),
the id of the resource and the ids of its ancestors. -/
structure pathHandler (σ : Type) where
  findHandler : GoString → σ → (Option (ResourceHandler σ) × ResourceID × List ResourceID) × σ

/-! ## The response writer -/

/-- An `http.ResponseWriter` as a recorder: whether the header has been sent, the status
code sent (200 until then) and the body bytes written so far. -/
structure ResponseWriter where
  wroteHeader : Bool
  Code : Int
  Body : List UInt8
deriving DecidableEq, Repr

namespace ResponseWriter

/-- The writer a request starts with: nothing sent yet. -/
def fresh : ResponseWriter := ⟨false, 200, []⟩

/-- The method `WriteHeader`: the first status code sent is the one that counts.  (The
server of `net/http` refuses a code outside 100..999; the recorder takes any code.) -/
def WriteHeader (w : ResponseWriter) (code : Int) : ResponseWriter :=
  if w.wroteHeader then w else ⟨true, code, w.Body⟩

/-- The method `Write`: sends the header with status 200 if none was sent, then the
bytes.  The recorder never fails, so the error returned is `nil`. -/
def Write (w : ResponseWriter) (b : List UInt8) : ResponseWriter × Option GoError :=
  let w1 := w.WriteHeader http.StatusOK
  (⟨w1.wroteHeader, w1.Code, w1.Body ++ b⟩, none)

end ResponseWriter

namespace http

/-- The function `http.Error` of `net/http`: sends the status code, then the message as
one line of plain text (`fmt.Fprintln`, so a line feed follows the message). -/
def Error (w : ResponseWriter) (error : GoString) (code : Int) : ResponseWriter :=
  ((w.WriteHeader code).Write (error ++ [10])).1

end http

/-- The interface `calavera.Middleware`, as `handle` uses it: `err := m.Handle(w, r)`
with `err` a `*error`.  `Handle` is handed the response writer and the `*http.Request`;
it may write to the writer, change the request (its method, its path, the bytes left
in its body) and change the state `σ`.  What it returns is a nil pointer (`none`), a
pointer to an error (`some (some e)`), or a pointer to a nil error (`some none`);
with it come the writer and the request as the call left them. -/
structure Middleware (σ : Type) where
  Handle : ResponseWriter → Request → σ →
    (Option (Option GoError) × ResponseWriter × Request) × σ

/-! ## `rest/nethttp.go` -/

/-- The struct `NetHTTP`.  Its field `prefix` is called `pathPrefix` here, since `prefix`
is a reserved word. -/
structure NetHTTP (σ : Type) where
  root : pathHandler σ
  pathPrefix : GoString
  prefixLen : Int
  middleware : List (Middleware σ)

namespace NetHTTP

/-- The constructor `NewNetHTTP`.  The helpers `normalizePrefix` and `NewPathHandler` are
defined in another file of the package and are taken as parameters. -/
def NewNetHTTP {σ : Type} (normalizePrefix : GoString → GoString)
    (NewPathHandler : GoString → pathHandler σ) (pfx : GoString) : NetHTTP σ :=
  let p := normalizePrefix pfx
  { root := NewPathHandler p, pathPrefix := p, prefixLen := (p.length : Int), middleware := [] }

/-- The method `getBody`: all the bytes of the request body. -/
def getBody {σ : Type} (_api : NetHTTP σ) (r : Request) : Payload := r.Body

/-- The method `getQueryParameters`. -/
def getQueryParameters {σ : Type} (_api : NetHTTP σ) (r : Request) : QueryParameters :=
  r.Query

/-- The method `sendResponse`.  The helper `getHttpError`, which makes the default error
of a status code, is defined in another file of the package and is taken as a
parameter.  The result is the writer afterwards and the error returned. -/
def sendResponse {σ : Type} (_api : NetHTTP σ) (getHttpError : Int → GoError)
    (w : ResponseWriter) (code : Int) (body : Payload) (err : Option GoError) :
    ResponseWriter × Option GoError :=
  if code = http.StatusOK then
    w.Write body
  else
    let err1 := match err with
      | none => getHttpError code
      | some e => e
    (http.Error w err1.Error code, some err1)

/-- The method `handleResource`: the `switch` on the method, case by case. -/
def handleResource {σ : Type} (api : NetHTTP σ) (method : GoString) (id : ResourceID)
    (parentIds : List ResourceID) (r : Request) (handler : ResourceHandler σ) :
    σ → Result × σ := fun s =>
  if method = goStr "OPTIONS" then
    handler.Options s
  else if method = goStr "POST" then
    if id ≠ goStr "" then
      ((http.StatusBadRequest, calavera.EmptyBody,
        some (errors.New (goStr "POST requests must not provide an ID"))), s)
    else
      handler.Post parentIds (api.getBody r) s
  else if method = goStr "GET" then
    if id ≠ goStr "" then
      handler.Get id parentIds s
    else
      handler.GetMany parentIds (api.getQueryParameters r) s
  else if method = goStr "PUT" then
    if id = goStr "" then
      ((http.StatusBadRequest, calavera.EmptyBody,
        some (errors.New (goStr "PUT method must provide an ID"))), s)
    else
      handler.Put id parentIds (api.getBody r) s
  else if method = goStr "DELETE" then
    if id = goStr "" then
      ((http.StatusBadRequest, calavera.EmptyBody,
        some (errors.New (goStr "DELETE method must provide an ID"))), s)
    else
      handler.Delete id parentIds s
  else
    ((http.StatusMethodNotAllowed, calavera.EmptyBody,
      some (errors.New (goStr "Method not allowed"))), s)

/-- The loop `for _, m := range api.middleware` of `handle`: the middleware in order,
each on the writer and the request as the one before left them, stopping at the first
one whose `Handle` returns a pointer that is not nil.  The result is that pointer
(`none` when every middleware passed) with the writer and the request at that point. -/
def applyMiddleware {σ : Type} (w : ResponseWriter) (r : Request) :
    List (Middleware σ) → σ → (Option (Option GoError) × ResponseWriter × Request) × σ
  | [], s => ((none, w, r), s)
  | m :: ms, s =>
    match m.Handle w r s with
    | ((some err, w1, r1), s1) => ((some err, w1, r1), s1)
    | ((none, w1, r1), s1) => applyMiddleware w1 r1 ms s1

/-- The method `handle`.  The result is `none` when the slice expression panics, and
otherwise the writer and the state of the collaborators afterwards.  The path is read
before the middleware run; `r.Method` and the body are read after them, and the
response is encoded on the writer as they left it; `*err` is the error the pointer of
the failing middleware points to. -/
def handle {σ : Type} (api : NetHTTP σ) (getHttpError : Int → GoError) (w : ResponseWriter)
    (r : Request) : σ → Option (ResponseWriter × σ) := fun s =>
  if (r.Path.length : Int) > api.prefixLen + 1 then
    match sliceFrom r.Path api.prefixLen with
    | none => none
    | some path =>
      match api.root.findHandler path s with
      | ((none, _, _), s1) =>
        some ((api.sendResponse getHttpError w http.StatusNotFound calavera.EmptyBody none).1, s1)
      | ((some handler, id, parentIds), s1) =>
        match applyMiddleware w r api.middleware s1 with
        | ((some err, w2, _), s2) =>
          some ((api.sendResponse getHttpError w2 http.StatusInternalServerError
            calavera.EmptyBody err).1, s2)
        | ((none, w2, r2), s2) =>
          match api.handleResource r2.Method id parentIds r2 handler s2 with
          | ((code, body, err), s3) =>
            some ((api.sendResponse getHttpError w2 code body err).1, s3)
  else
    some ((api.sendResponse getHttpError w http.StatusNotFound calavera.EmptyBody none).1, s)

/-- The method `AddMiddleware`: appends to the registered sequence. -/
def AddMiddleware {σ : Type} (api : NetHTTP σ) (m : Middleware σ) : NetHTTP σ :=
  { api with middleware := api.middleware ++ [m] }

/-- The API as it is set up before serving: `NewNetHTTP`, then one call of
`AddMiddleware` for each middleware of `ms`, in the order of `ms`. -/
def setup {σ : Type} (normalizePrefix : GoString → GoString)
    (NewPathHandler : GoString → pathHandler σ) (pfx : GoString)
    (ms : List (Middleware σ)) : NetHTTP σ :=
  ms.foldl AddMiddleware (NewNetHTTP normalizePrefix NewPathHandler pfx)

end NetHTTP

/-! ## `rest/echo.go` -/

namespace echo

/-- The part of `echo.Context` that the binding uses: the path parameters (`c.Param`)
and the response being written. -/
structure Context where
  Param : GoString → GoString
  Response : ResponseWriter

/-- The method `c.String(code, s)`: sends the status code and the bytes of `s` as plain
text.  The recorder never fails, so the error returned is `nil`. -/
def Context.String (c : Context) (code : Int) (s : GoString) : Context × Option GoError :=
  ({ c with Response := ((c.Response.WriteHeader code).Write s).1 }, none)

end echo

namespace EchoAPI

/-- The method `getParentIds`: every looked-up value is put in front of the ones
collected before it. -/
def getParentIds (c : echo.Context) (idParams : List GoString) : List ResourceID :=
  idParams.foldl (fun ids id => [c.Param id] ++ ids) []

/-- The method `sendResponse`; `getHttpError` is a parameter as for `NetHTTP`, and
`string(body)` keeps the bytes of `body`. -/
def sendResponse (getHttpError : Int → GoError) (c : echo.Context) (code : Int)
    (body : Payload) (err : Option GoError) : echo.Context × Option GoError :=
  if code ≠ http.StatusOK ∨ err ≠ none then
    let err1 := match err with
      | none => getHttpError code
      | some e => e
    c.String code err1.Error
  else
    c.String code body

end EchoAPI

/-! ## Recording collaborators

To say which collaborators a run calls, how often and in which order, a collaborator
is wrapped so that each call is also written to a log kept next to its state. -/

/-- A call to a collaborator, with its arguments. -/
inductive Event where
  | findHandler (path : GoString)
  | Handle (i : Nat)
  | Options
  | Post (parentIds : List ResourceID) (body : Payload)
  | Get (id : ResourceID) (parentIds : List ResourceID)
  | GetMany (parentIds : List ResourceID) (query : QueryParameters)
  | Put (id : ResourceID) (parentIds : List ResourceID) (body : Payload)
  | Delete (id : ResourceID) (parentIds : List ResourceID)
deriving DecidableEq, Repr

/-- Runs the call `f` on the state and appends `ev` to the log. -/
def logged {σ α : Type} (ev : Event) (f : σ → α × σ) : σ × List Event → α × (σ × List Event) :=
  fun st => ((f st.1).1, ((f st.1).2, st.2 ++ [ev]))

/-- The handler `h`, with every call of a capability logged. -/
def spyHandler {σ : Type} (h : ResourceHandler σ) : ResourceHandler (σ × List Event) where
  Options := logged Event.Options h.Options
  Post := fun parentIds body => logged (Event.Post parentIds body) (h.Post parentIds body)
  Get := fun id parentIds => logged (Event.Get id parentIds) (h.Get id parentIds)
  GetMany := fun parentIds query =>
    logged (Event.GetMany parentIds query) (h.GetMany parentIds query)
  Put := fun id parentIds body =>
    logged (Event.Put id parentIds body) (h.Put id parentIds body)
  Delete := fun id parentIds => logged (Event.Delete id parentIds) (h.Delete id parentIds)

/-- The middleware `m`, with every call of `Handle` logged under the number `i`. -/
def spyMiddleware {σ : Type} (i : Nat) (m : Middleware σ) : Middleware (σ × List Event) where
  Handle := fun w r => logged (Event.Handle i) (m.Handle w r)

/-- The middleware of a list, each logged under its position, counted from `n`. -/
def spyFrom {σ : Type} (n : Nat) : List (Middleware σ) → List (Middleware (σ × List Event))
  | [] => []
  | m :: ms => spyMiddleware n m :: spyFrom (n + 1) ms

/-- The path tree `root`, with every call of `findHandler` logged, and whose handlers
are logged as well. -/
def spyRoot {σ : Type} (root : pathHandler σ) : pathHandler (σ × List Event) where
  findHandler := fun path st =>
    match root.findHandler path st.1 with
    | ((h, id, parentIds), s1) =>
      ((h.map spyHandler, id, parentIds), (s1, st.2 ++ [Event.findHandler path]))

/-- The API `api`, with every collaborator logged. -/
def spyAPI {σ : Type} (api : NetHTTP σ) : NetHTTP (σ × List Event) where
  root := spyRoot api.root
  pathPrefix := api.pathPrefix
  prefixLen := api.prefixLen
  middleware := spyFrom 0 api.middleware

/-- Every middleware of the list, called in order, each on the writer, the request and
the state as the one before it left them, returns a nil pointer; the last one leaves
the writer `w2`, the request `r2` and the state `s2`. -/
inductive ChainPasses {σ : Type} :
    List (Middleware σ) → ResponseWriter → Request → σ → ResponseWriter → Request → σ → Prop where
  | nil (w : ResponseWriter) (r : Request) (s : σ) : ChainPasses [] w r s w r s
  | cons {m : Middleware σ} {ms : List (Middleware σ)} {w w1 w2 : ResponseWriter}
      {r r1 r2 : Request} {s s1 s2 : σ} :
      m.Handle w r s = ((none, w1, r1), s1) → ChainPasses ms w1 r1 s1 w2 r2 s2 →
      ChainPasses (m :: ms) w r s w2 r2 s2

/-! ## Sample collaborators, for the concrete instances -/

/-- Modelled from the spec: `getHttpError` is not among the sources; the spec says it
synthesizes a default textual message for the status code, a generic phrase for 404, 405
and so on.  The phrases here are the standard reason phrases of the four codes the binding
makes itself, and the empty text for any other code. -/
def getHttpError (code : Int) : GoError :=
  errors.New
    (if code = 400 then goStr "Bad Request"
     else if code = 404 then goStr "Not Found"
     else if code = 405 then goStr "Method Not Allowed"
     else if code = 500 then goStr "Internal Server Error"
     else goStr "")

/-- A handler whose state is a counter: each capability adds its own amount and answers
with what it was given. -/
def sampleHandler : ResourceHandler Nat where
  Options := fun s => ((200, goStr "OPTIONS", none), s + 1)
  Post := fun _ body s => ((201, body, none), s + 2)
  Get := fun id _ s => ((200, id, none), s + 3)
  GetMany := fun _ _ s => ((200, goStr "many", none), s + 4)
  Put := fun _ _ body s => ((200, body, none), s + 5)
  Delete := fun _ _ s => ((204, [], none), s + 6)

/-- A middleware that lets every request pass and touches neither the writer nor the
request. -/
def passing : Middleware Nat where
  Handle := fun w r s => ((none, w, r), s + 10)

/-- A middleware that rejects every request with the given message and touches neither
the writer nor the request. -/
def failing (text : GoString) : Middleware Nat where
  Handle := fun w r s => ((some (some (errors.New text)), w, r), s + 100)

/-- A middleware that answers by itself, with status 403 and the body `x`, and then
rejects the request with the given message. -/
def forbidding (text : GoString) : Middleware Nat where
  Handle := fun w r s =>
    ((some (some (errors.New text)), ((w.WriteHeader 403).Write (goStr "x")).1, r), s + 100)

/-- A middleware that lets every request pass after it has read the whole body of the
request and set its method to `DELETE`. -/
def rewriting : Middleware Nat where
  Handle := fun w r s => ((none, w, { r with Method := goStr "DELETE", Body := [] }), s + 10)

/-- A path tree with the one resource `widgets`, looked up by the two paths the
instances use. -/
def sampleRoot : pathHandler Nat where
  findHandler := fun path s =>
    if path = goStr "/widgets/42" then ((some sampleHandler, goStr "42", []), s)
    else if path = goStr "/widgets" then ((some sampleHandler, goStr "", []), s)
    else ((none, goStr "", []), s)

/-- An `echo.Context` for the path `/grandparent/1/parent/2/child/3`, with nothing
written yet. -/
def sampleContext : echo.Context where
  Param := fun name =>
    if name = goStr "grandparent" then goStr "1"
    else if name = goStr "parent" then goStr "2"
    else if name = goStr "child" then goStr "3"
    else goStr ""
  Response := ResponseWriter.fresh

/-- A request to the sample API, which is served under `/api`. -/
def sampleRequest (method path : String) : Request where
  Method := goStr method
  Path := goStr path
  Body := goStr "body"
  Query := [(goStr "page", [goStr "2"])]

/-- The sample API: `NewNetHTTP` under `/api`, then `AddMiddleware` for each of `ms`. -/
def sampleAPI (ms : List (Middleware Nat)) : NetHTTP Nat :=
  NetHTTP.setup (fun p => p) (fun _ => sampleRoot) (goStr "/api") ms

/-! ## The method dispatcher -/

/-- C1: on a valid combination of method and id, `handleResource` calls exactly one
capability of the handler, once, with the arguments it was given (the parent ids, the
request body, the query), and returns what the capability returned: `Options` for
OPTIONS with any id, `Post` for POST with the empty id, `Get` for GET with an id,
`GetMany` for GET with the empty id, `Put` for PUT with an id, `Delete` for DELETE
with an id.  The log of the recording handler grows by that one call and the state
of the handler is the one that call left. -/
theorem handleResource_dispatch {σ : Type} (api : NetHTTP (σ × List Event))
    (h : ResourceHandler σ) (id anyId : ResourceID) (parentIds : List ResourceID)
    (r : Request) (s : σ) (t : List Event) (hid : id ≠ goStr "") :
    api.handleResource (goStr "OPTIONS") anyId parentIds r (spyHandler h) (s, t)
        = ((h.Options s).1, ((h.Options s).2, t ++ [Event.Options]))
    ∧ api.handleResource (goStr "POST") (goStr "") parentIds r (spyHandler h) (s, t)
        = ((h.Post parentIds r.Body s).1,
            ((h.Post parentIds r.Body s).2, t ++ [Event.Post parentIds r.Body]))
    ∧ api.handleResource (goStr "GET") id parentIds r (spyHandler h) (s, t)
        = ((h.Get id parentIds s).1,
            ((h.Get id parentIds s).2, t ++ [Event.Get id parentIds]))
    ∧ api.handleResource (goStr "GET") (goStr "") parentIds r (spyHandler h) (s, t)
        = ((h.GetMany parentIds r.Query s).1,
            ((h.GetMany parentIds r.Query s).2, t ++ [Event.GetMany parentIds r.Query]))
    ∧ api.handleResource (goStr "PUT") id parentIds r (spyHandler h) (s, t)
        = ((h.Put id parentIds r.Body s).1,
            ((h.Put id parentIds r.Body s).2, t ++ [Event.Put id parentIds r.Body]))
    ∧ api.handleResource (goStr "DELETE") id parentIds r (spyHandler h) (s, t)
        = ((h.Delete id parentIds s).1,
            ((h.Delete id parentIds s).2, t ++ [Event.Delete id parentIds])) := by
  have e1 : goStr "POST" ≠ goStr "OPTIONS" := by decide
  have e2 : goStr "GET" ≠ goStr "OPTIONS" := by decide
  have e3 : goStr "GET" ≠ goStr "POST" := by decide
  have e4 : goStr "PUT" ≠ goStr "OPTIONS" := by decide
  have e5 : goStr "PUT" ≠ goStr "POST" := by decide
  have e6 : goStr "PUT" ≠ goStr "GET" := by decide
  have e7 : goStr "DELETE" ≠ goStr "OPTIONS" := by decide
  have e8 : goStr "DELETE" ≠ goStr "POST" := by decide
  have e9 : goStr "DELETE" ≠ goStr "GET" := by decide
  have e10 : goStr "DELETE" ≠ goStr "PUT" := by decide
  refine ⟨?_, ?_, ?_, ?_, ?_, ?_⟩ <;>
    simp [NetHTTP.handleResource, NetHTTP.getBody, NetHTTP.getQueryParameters, spyHandler,
      logged, e1, e2, e3, e4, e5, e6, e7, e8, e9, e10, hid]

/-- C1, at a concrete input: GET with the id `42` calls `Get` of the sample handler once
and returns its result. -/
theorem handleResource_dispatch_witness :
    goStr "42" ≠ goStr "" ∧
    (spyAPI (sampleAPI [])).handleResource (goStr "GET") (goStr "42") []
        (sampleRequest "GET" "/api/widgets/42") (spyHandler sampleHandler) (0, [])
      = ((200, goStr "42", none), (3, [Event.Get (goStr "42") []])) :=
  ⟨by decide,
    (handleResource_dispatch (spyAPI (sampleAPI [])) sampleHandler (goStr "42") (goStr "") []
      (sampleRequest "GET" "/api/widgets/42") 0 [] (by decide)).2.2.1⟩

/-- C2: when the id rule of the method is broken, `handleResource` calls no capability
of the handler (the log and the state of the recording handler are as before) and
returns status 400, the empty payload and an error with the message of the method:
POST with an id, PUT with the empty id, DELETE with the empty id. -/
theorem handleResource_bad_request {σ : Type} (api : NetHTTP (σ × List Event))
    (h : ResourceHandler σ) (id : ResourceID) (parentIds : List ResourceID)
    (r : Request) (s : σ) (t : List Event) (hid : id ≠ goStr "") :
    api.handleResource (goStr "POST") id parentIds r (spyHandler h) (s, t)
        = ((400, [], some ⟨goStr "POST requests must not provide an ID"⟩), (s, t))
    ∧ api.handleResource (goStr "PUT") (goStr "") parentIds r (spyHandler h) (s, t)
        = ((400, [], some ⟨goStr "PUT method must provide an ID"⟩), (s, t))
    ∧ api.handleResource (goStr "DELETE") (goStr "") parentIds r (spyHandler h) (s, t)
        = ((400, [], some ⟨goStr "DELETE method must provide an ID"⟩), (s, t)) := by
  have e1 : goStr "POST" ≠ goStr "OPTIONS" := by decide
  have e4 : goStr "PUT" ≠ goStr "OPTIONS" := by decide
  have e5 : goStr "PUT" ≠ goStr "POST" := by decide
  have e6 : goStr "PUT" ≠ goStr "GET" := by decide
  have e7 : goStr "DELETE" ≠ goStr "OPTIONS" := by decide
  have e8 : goStr "DELETE" ≠ goStr "POST" := by decide
  have e9 : goStr "DELETE" ≠ goStr "GET" := by decide
  have e10 : goStr "DELETE" ≠ goStr "PUT" := by decide
  refine ⟨?_, ?_, ?_⟩ <;>
    simp [NetHTTP.handleResource, calavera.EmptyBody, errors.New, e1, e4, e5, e6, e7, e8,
      e9, e10, hid]

/-- C2, at a concrete input: POST with the id `42` is refused and the sample handler is
not called. -/
theorem handleResource_bad_request_witness :
    goStr "42" ≠ goStr "" ∧
    (spyAPI (sampleAPI [])).handleResource (goStr "POST") (goStr "42") []
        (sampleRequest "POST" "/api/widgets/42") (spyHandler sampleHandler) (0, [])
      = ((400, [], some ⟨goStr "POST requests must not provide an ID"⟩), (0, [])) :=
  ⟨by decide,
    (handleResource_bad_request (spyAPI (sampleAPI [])) sampleHandler (goStr "42") []
      (sampleRequest "POST" "/api/widgets/42") 0 [] (by decide)).1⟩

/-- C3: for a method that is none of OPTIONS, POST, GET, PUT, DELETE, whatever the id,
`handleResource` calls no capability of the handler (the log and the state of the
recording handler are as before) and returns status 405, the empty payload and an
error with the message `Method not allowed`. -/
theorem handleResource_method_not_allowed {σ : Type} (api : NetHTTP (σ × List Event))
    (h : ResourceHandler σ) (method : GoString) (id : ResourceID)
    (parentIds : List ResourceID) (r : Request) (s : σ) (t : List Event)
    (h1 : method ≠ goStr "OPTIONS") (h2 : method ≠ goStr "POST")
    (h3 : method ≠ goStr "GET") (h4 : method ≠ goStr "PUT")
    (h5 : method ≠ goStr "DELETE") :
    api.handleResource method id parentIds r (spyHandler h) (s, t)
      = ((405, [], some ⟨goStr "Method not allowed"⟩), (s, t)) := by
  simp [NetHTTP.handleResource, calavera.EmptyBody, errors.New, h1, h2, h3, h4, h5]

/-- C3, at concrete inputs: PATCH with an id and the lower-case `get` without one are
both refused with 405, and the sample handler is not called. -/
theorem handleResource_method_not_allowed_witness :
    (spyAPI (sampleAPI [])).handleResource (goStr "PATCH") (goStr "42") []
        (sampleRequest "PATCH" "/api/widgets/42") (spyHandler sampleHandler) (0, [])
      = ((405, [], some ⟨goStr "Method not allowed"⟩), (0, []))
    ∧ (spyAPI (sampleAPI [])).handleResource (goStr "get") (goStr "") []
        (sampleRequest "get" "/api/widgets") (spyHandler sampleHandler) (0, [])
      = ((405, [], some ⟨goStr "Method not allowed"⟩), (0, [])) :=
  ⟨handleResource_method_not_allowed _ sampleHandler (goStr "PATCH") (goStr "42") [] _ 0 []
      (by decide) (by decide) (by decide) (by decide) (by decide),
    handleResource_method_not_allowed _ sampleHandler (goStr "get") (goStr "") [] _ 0 []
      (by decide) (by decide) (by decide) (by decide) (by decide)⟩

/-! ## The ancestor ids of the echo binding -/

/-- C6: `getParentIds` returns the looked-up values in the reverse of the order of
`idParams`, as many as there are names; it is the list collected in the order of the
names and reversed once.  Two names give the value of the second, then the value of
the first; for `/grandparent/1/parent/2/child/3` that is `2`, then `1`; no names
give the empty list. -/
theorem getParentIds_reverse (c : echo.Context) (idParams : List GoString)
    (outer inner : GoString) :
    EchoAPI.getParentIds c idParams = (idParams.map c.Param).reverse
    ∧ (EchoAPI.getParentIds c idParams).length = idParams.length
    ∧ EchoAPI.getParentIds c [outer, inner] = [c.Param inner, c.Param outer]
    ∧ EchoAPI.getParentIds sampleContext [goStr "grandparent", goStr "parent"]
        = [goStr "2", goStr "1"]
    ∧ EchoAPI.getParentIds c [] = [] := by
  have step : ∀ (l : List GoString) (acc : List ResourceID),
      l.foldl (fun ids id => [c.Param id] ++ ids) acc = (l.map c.Param).reverse ++ acc := by
    intro l
    induction l with
    | nil => intro acc; rfl
    | cons a l ih =>
      intro acc
      rw [List.foldl_cons, ih]
      simp
  have main : EchoAPI.getParentIds c idParams = (idParams.map c.Param).reverse := by
    unfold EchoAPI.getParentIds
    rw [step]
    simp
  refine ⟨main, ?_, rfl, by decide, rfl⟩
  rw [main]
  simp

/-! ## The response encoder -/

/-- C7: for the result `(200, payload, nil)` each binding sends status 200 and exactly
the bytes of the payload: `NetHTTP.sendResponse` and `EchoAPI.sendResponse`, on a
writer that has sent nothing yet. -/
theorem sendResponse_ok {σ : Type} (api : NetHTTP σ) (g : Int → GoError)
    (param : GoString → GoString) (payload : Payload) :
    (api.sendResponse g ResponseWriter.fresh 200 payload none).1 = ⟨true, 200, payload⟩
    ∧ (EchoAPI.sendResponse g ⟨param, ResponseWriter.fresh⟩ 200 payload none).1.Response
        = ⟨true, 200, payload⟩ := by
  constructor
  · simp [NetHTTP.sendResponse, ResponseWriter.Write, ResponseWriter.WriteHeader,
      ResponseWriter.fresh]
  · simp [EchoAPI.sendResponse, echo.Context.String, ResponseWriter.Write,
      ResponseWriter.WriteHeader, ResponseWriter.fresh]

/-- C8, at the failing input: for a result with status 200 and an error present,
`NetHTTP.sendResponse` sends status 200 with the payload as the body and drops the
error, whatever the payload and the error are, so the body depends on the payload and
is not the message of the error: for the error `boom` the body is `payload` when the
payload is `payload` and `other` when it is `other`.  The sibling
`EchoAPI.sendResponse` sends the message of the error for the same result. -/
theorem sendResponse_ok_with_error {σ : Type} (api : NetHTTP σ) (g : Int → GoError)
    (param : GoString → GoString) (payload : Payload) (e : GoError) :
    api.sendResponse g ResponseWriter.fresh 200 payload (some e) = (⟨true, 200, payload⟩, none)
    ∧ (EchoAPI.sendResponse g ⟨param, ResponseWriter.fresh⟩ 200 payload (some e)).1.Response
      = ⟨true, 200, e.Error⟩
    ∧ (NetHTTP.sendResponse (sampleAPI []) getHttpError ResponseWriter.fresh 200
        (goStr "payload") (some (errors.New (goStr "boom"))))
      = (⟨true, 200, goStr "payload"⟩, none)
    ∧ (NetHTTP.sendResponse (sampleAPI []) getHttpError ResponseWriter.fresh 200
        (goStr "other") (some (errors.New (goStr "boom"))))
      = (⟨true, 200, goStr "other"⟩, none)
    ∧ (EchoAPI.sendResponse getHttpError sampleContext 200
        (goStr "payload") (some (errors.New (goStr "boom")))).1.Response
      = ⟨true, 200, goStr "boom"⟩ := by
  refine ⟨?_, ?_, by decide, by decide, by decide⟩
  · simp [NetHTTP.sendResponse, ResponseWriter.Write, ResponseWriter.WriteHeader,
      ResponseWriter.fresh]
  · simp [EchoAPI.sendResponse, echo.Context.String, ResponseWriter.Write,
      ResponseWriter.WriteHeader, ResponseWriter.fresh]

/-! ## The request handler: lemmas -/

/-- The error branch of `NetHTTP.sendResponse` on a writer that has sent nothing. -/
theorem sendResponse_error_fresh {σ : Type} (api : NetHTTP σ) (g : Int → GoError)
    (code : Int) (body : Payload) (e : GoError) (hcode : code ≠ 200) :
    (api.sendResponse g ResponseWriter.fresh code body (some e)).1
      = ⟨true, code, e.Error ++ [10]⟩ := by
  simp [NetHTTP.sendResponse, hcode, http.Error, ResponseWriter.Write,
    ResponseWriter.WriteHeader, ResponseWriter.fresh]

/-- The default-message branch of `NetHTTP.sendResponse` on a writer that has sent
nothing. -/
theorem sendResponse_default_fresh {σ : Type} (api : NetHTTP σ) (g : Int → GoError)
    (code : Int) (body : Payload) (hcode : code ≠ 200) :
    (api.sendResponse g ResponseWriter.fresh code body none).1
      = ⟨true, code, (g code).Error ++ [10]⟩ := by
  simp [NetHTTP.sendResponse, hcode, http.Error, ResponseWriter.Write,
    ResponseWriter.WriteHeader, ResponseWriter.fresh]

/-- A chain of recorded middleware that all pass: the loop calls each once, in order,
and ends with the writer and the request as the last one left them. -/
theorem applyMiddleware_spy_passes {σ : Type} (ms : List (Middleware σ))
    (w w2 : ResponseWriter) (r r2 : Request) (s1 s2 : σ)
    (hp : ChainPasses ms w r s1 w2 r2 s2) (n : Nat) (t : List Event) :
    NetHTTP.applyMiddleware w r (spyFrom n ms) (s1, t)
      = ((none, w2, r2), (s2, t ++ (List.range' n ms.length).map Event.Handle)) := by
  induction hp generalizing n t with
  | nil w r s => simp [spyFrom, NetHTTP.applyMiddleware]
  | cons hm _ ih =>
    simp only [spyFrom, NetHTTP.applyMiddleware, spyMiddleware, logged, hm]
    rw [ih]
    simp [List.range'_succ]

/-- A chain of recorded middleware whose first failure is right after `pre`: the loop
calls `pre` and the failing one, once each and in order, and nothing after it. -/
theorem applyMiddleware_spy_fails {σ : Type} (pre post : List (Middleware σ))
    (m : Middleware σ) (err : Option GoError) (w w2 w3 : ResponseWriter)
    (r r2 r3 : Request) (s1 s2 s3 : σ) (hp : ChainPasses pre w r s1 w2 r2 s2)
    (hf : m.Handle w2 r2 s2 = ((some err, w3, r3), s3)) (n : Nat) (t : List Event) :
    NetHTTP.applyMiddleware w r (spyFrom n (pre ++ m :: post)) (s1, t)
      = ((some err, w3, r3),
          (s3, t ++ (List.range' n (pre.length + 1)).map Event.Handle)) := by
  induction hp generalizing n t with
  | nil w r s => simp [spyFrom, NetHTTP.applyMiddleware, spyMiddleware, logged, hf]
  | cons hm _ ih =>
    simp only [List.cons_append, spyFrom, NetHTTP.applyMiddleware, spyMiddleware, logged, hm,
      List.append_eq]
    rw [ih hf]
    simp [List.range'_succ]

/-- The loop over recorded middleware only adds to the log. -/
theorem applyMiddleware_spy_log {σ : Type} (ms : List (Middleware σ)) :
    ∀ (n : Nat) (w : ResponseWriter) (r : Request) (s : σ) (t : List Event),
      ∃ t1, (NetHTTP.applyMiddleware w r (spyFrom n ms) (s, t)).2.2 = t ++ t1 := by
  induction ms with
  | nil => intro n w r s t; exact ⟨[], by simp [spyFrom, NetHTTP.applyMiddleware]⟩
  | cons m ms ih =>
    intro n w r s t
    rcases hm : m.Handle w r s with ⟨⟨eo, w1, r1⟩, s1⟩
    cases eo with
    | some e =>
      refine ⟨[Event.Handle n], ?_⟩
      simp only [spyFrom, NetHTTP.applyMiddleware, spyMiddleware, logged, hm]
    | none =>
      obtain ⟨t1, ht1⟩ := ih (n + 1) w1 r1 s1 (t ++ [Event.Handle n])
      refine ⟨Event.Handle n :: t1, ?_⟩
      simp only [spyFrom, NetHTTP.applyMiddleware, spyMiddleware, logged, hm]
      rw [ht1]
      simp

/-- The dispatcher on a recorded handler only adds to the log. -/
theorem handleResource_spy_log {σ : Type} (api : NetHTTP (σ × List Event))
    (method : GoString) (id : ResourceID) (parentIds : List ResourceID) (r : Request)
    (h : ResourceHandler σ) (s : σ) (t : List Event) :
    ∃ t1, (api.handleResource method id parentIds r (spyHandler h) (s, t)).2.2 = t ++ t1 := by
  unfold NetHTTP.handleResource
  simp only [spyHandler, logged]
  split_ifs
  all_goals first
    | exact ⟨[], (List.append_nil t).symm⟩
    | exact ⟨[_], rfl⟩

/-- The calls of `AddMiddleware` keep the tree and the prefix and append to the
middleware. -/
theorem setup_fields {σ : Type} (normalizePrefix : GoString → GoString)
    (NewPathHandler : GoString → pathHandler σ) (pfx : GoString)
    (ms : List (Middleware σ)) :
    (NetHTTP.setup normalizePrefix NewPathHandler pfx ms).middleware = ms
    ∧ (NetHTTP.setup normalizePrefix NewPathHandler pfx ms).root
        = NewPathHandler (normalizePrefix pfx)
    ∧ (NetHTTP.setup normalizePrefix NewPathHandler pfx ms).pathPrefix = normalizePrefix pfx
    ∧ (NetHTTP.setup normalizePrefix NewPathHandler pfx ms).prefixLen
        = ((normalizePrefix pfx).length : Int) := by
  have key : ∀ (l : List (Middleware σ)) (api : NetHTTP σ),
      (l.foldl NetHTTP.AddMiddleware api).middleware = api.middleware ++ l
      ∧ (l.foldl NetHTTP.AddMiddleware api).root = api.root
      ∧ (l.foldl NetHTTP.AddMiddleware api).pathPrefix = api.pathPrefix
      ∧ (l.foldl NetHTTP.AddMiddleware api).prefixLen = api.prefixLen := by
    intro l
    induction l with
    | nil => intro api; simp
    | cons m l ih =>
      intro api
      simp only [List.foldl_cons]
      obtain ⟨h1, h2, h3, h4⟩ := ih (NetHTTP.AddMiddleware api m)
      refine ⟨?_, ?_, ?_, ?_⟩
      · rw [h1]; simp [NetHTTP.AddMiddleware]
      · rw [h2]; rfl
      · rw [h3]; rfl
      · rw [h4]; rfl
  obtain ⟨h1, h2, h3, h4⟩ := key ms (NetHTTP.NewNetHTTP normalizePrefix NewPathHandler pfx)
  unfold NetHTTP.setup
  refine ⟨?_, ?_, ?_, ?_⟩
  · rw [h1]; simp [NetHTTP.NewNetHTTP]
  · rw [h2]; rfl
  · rw [h3]; rfl
  · rw [h4]; rfl

/-! ## The request handler -/

/-- C4, as stated, fails: of three middleware the second fails with `denied`.  When it
has written nothing, the response is 500 and its body is the line `denied` with its
line feed, which is not the message `denied`; when it has itself answered with 403
and `x`, the response keeps the status 403 and its body is `x` and then that line. -/
theorem handle_middleware_error_body_differs :
    (spyAPI (sampleAPI [passing, failing (goStr "denied"), passing])).handle getHttpError
        ResponseWriter.fresh (sampleRequest "GET" "/api/widgets/42") (0, [])
      = some (⟨true, 500, goStr "denied\n"⟩,
          (110, [Event.findHandler (goStr "/widgets/42"), Event.Handle 0, Event.Handle 1]))
    ∧ goStr "denied\n" ≠ (errors.New (goStr "denied")).Error
    ∧ (spyAPI (sampleAPI [passing, forbidding (goStr "denied"), passing])).handle getHttpError
        ResponseWriter.fresh (sampleRequest "GET" "/api/widgets/42") (0, [])
      = some (⟨true, 403, goStr "xdenied\n"⟩,
          (110, [Event.findHandler (goStr "/widgets/42"), Event.Handle 0, Event.Handle 1])) := by
  refine ⟨by rfl, by decide, by rfl⟩

/-- C4, amended: when the path resolves to a handler and the first middleware to return
a pointer that is not nil is the one after `pre` (its index is the length of `pre`),
`handle` calls the middleware up to and including that one, once each and in the
order of registration, each on the writer and the request as the one before left
them, calls no later middleware and no capability of the handler (the log ends with
the failing middleware), and calls `http.Error` with status 500 and the message of
the error returned (the default message of `getHttpError` for 500 when the pointer
points to a nil error) on the writer as the failing middleware left it.  When no
header has been sent on that writer, the response has status 500 and its body is what
was written before, then the message, then a line feed. -/
theorem handle_middleware_error {σ : Type} (api : NetHTTP σ) (g : Int → GoError)
    (w w2 w3 : ResponseWriter) (r r2 r3 : Request) (path : GoString)
    (h : ResourceHandler σ) (id : ResourceID) (parentIds : List ResourceID)
    (pre post : List (Middleware σ)) (m : Middleware σ) (err : Option GoError)
    (s s1 s2 s3 : σ)
    (hlen : (r.Path.length : Int) > api.prefixLen + 1)
    (hslice : sliceFrom r.Path api.prefixLen = some path)
    (hfind : api.root.findHandler path s = ((some h, id, parentIds), s1))
    (hreg : api.middleware = pre ++ m :: post)
    (hpass : ChainPasses pre w r s1 w2 r2 s2)
    (hfail : m.Handle w2 r2 s2 = ((some err, w3, r3), s3)) :
    (spyAPI api).handle g w r (s, [])
      = some (http.Error w3 (err.getD (g 500)).Error 500,
          (s3, Event.findHandler path :: (List.range (pre.length + 1)).map Event.Handle))
    ∧ (w3.wroteHeader = false →
        http.Error w3 (err.getD (g 500)).Error 500
          = ⟨true, 500, w3.Body ++ (err.getD (g 500)).Error ++ [10]⟩) := by
  refine ⟨?_, ?_⟩
  · have hrun := applyMiddleware_spy_fails pre post m err w w2 w3 r r2 r3 s1 s2 s3 hpass hfail 0
      [Event.findHandler path]
    simp only [NetHTTP.handle, spyAPI, spyRoot, hlen, hslice, hfind, hreg, if_true,
      Option.map_some', List.nil_append, hrun, List.range_eq_range']
    cases err <;> simp [NetHTTP.sendResponse]
  · intro hw
    simp [http.Error, ResponseWriter.Write, ResponseWriter.WriteHeader, hw]

/-- C4, amended, at a concrete input: of three middleware the second fails with
`denied` and has written nothing; the first two are called, the third and the handler
are not, and the response is 500 with the line `denied`. -/
theorem handle_middleware_error_witness :
    (spyAPI (sampleAPI [passing, failing (goStr "denied"), passing])).handle getHttpError
        ResponseWriter.fresh (sampleRequest "GET" "/api/widgets/42") (0, [])
      = some (http.Error ResponseWriter.fresh (goStr "denied") 500,
          (110, [Event.findHandler (goStr "/widgets/42"), Event.Handle 0, Event.Handle 1])) :=
  (handle_middleware_error (sampleAPI [passing, failing (goStr "denied"), passing])
    getHttpError ResponseWriter.fresh ResponseWriter.fresh ResponseWriter.fresh
    (sampleRequest "GET" "/api/widgets/42") (sampleRequest "GET" "/api/widgets/42")
    (sampleRequest "GET" "/api/widgets/42") (goStr "/widgets/42") sampleHandler
    (goStr "42") [] [passing] [passing] (failing (goStr "denied"))
    (some (errors.New (goStr "denied"))) 0 0 10 110
    (by decide) (by decide) rfl rfl
    (ChainPasses.cons rfl (ChainPasses.nil _ _ 10)) rfl).1

/-- C5: for the API set up by `NewNetHTTP` and one `AddMiddleware` per middleware of
`ms`, when the path resolves to a handler and no middleware returns an error,
`handle` calls every middleware once, in the order they were added, all before the
dispatch, then runs `handleResource` once, with the method of the request and the
resolved id and parent ids, on the request and the state as the last middleware left
them, and sends `sendResponse` of the triple that `handleResource` returned, on the
writer as the last middleware left it. -/
theorem handle_middleware_pass {σ : Type} (normalizePrefix : GoString → GoString)
    (NewPathHandler : GoString → pathHandler σ) (pfx : GoString)
    (ms : List (Middleware σ)) (g : Int → GoError) (w w2 : ResponseWriter)
    (r r2 : Request) (h : ResourceHandler σ) (id : ResourceID)
    (parentIds : List ResourceID) (s s1 s2 : σ)
    (hlen : (r.Path.length : Int) > ((normalizePrefix pfx).length : Int) + 1)
    (hfind : (NewPathHandler (normalizePrefix pfx)).findHandler
        (r.Path.drop (normalizePrefix pfx).length) s = ((some h, id, parentIds), s1))
    (hpass : ChainPasses ms w r s1 w2 r2 s2) :
    let api := spyAPI (NetHTTP.setup normalizePrefix NewPathHandler pfx ms)
    let out := api.handleResource r2.Method id parentIds r2 (spyHandler h)
      (s2, Event.findHandler (r.Path.drop (normalizePrefix pfx).length)
        :: (List.range ms.length).map Event.Handle)
    api.handle g w r (s, [])
      = some ((api.sendResponse g w2 out.1.1 out.1.2.1 out.1.2.2).1, out.2) := by
  intro api out
  obtain ⟨hm, hroot, _, hpl⟩ := setup_fields normalizePrefix NewPathHandler pfx ms
  have hslice : sliceFrom r.Path ((normalizePrefix pfx).length : Int)
      = some (r.Path.drop (normalizePrefix pfx).length) := by
    have hle : ((normalizePrefix pfx).length : Int) ≤ (r.Path.length : Int) := by omega
    simp [sliceFrom, hle]
  have hrun := applyMiddleware_spy_passes ms w w2 r r2 s1 s2 hpass 0
    [Event.findHandler (r.Path.drop (normalizePrefix pfx).length)]
  simp only [api, out, NetHTTP.handle, spyAPI, spyRoot, hm, hroot, hpl, hlen, hslice, hfind,
    if_true, Option.map_some', List.nil_append, hrun, List.range_eq_range',
    List.singleton_append]

/-- C5, at concrete inputs: two middleware pass, then GET `/api/widgets/42` calls `Get`
of the sample handler and the response is 200 with its payload; and after a middleware
that has set the method to DELETE it is `Delete` that is called, whose status 204
with no error is sent with the default message of that status, here the empty line. -/
theorem handle_middleware_pass_witness :
    (spyAPI (sampleAPI [passing, passing])).handle getHttpError ResponseWriter.fresh
        (sampleRequest "GET" "/api/widgets/42") (0, [])
      = some (⟨true, 200, goStr "42"⟩,
          (23, [Event.findHandler (goStr "/widgets/42"), Event.Handle 0, Event.Handle 1,
            Event.Get (goStr "42") []]))
    ∧ (spyAPI (sampleAPI [rewriting])).handle getHttpError ResponseWriter.fresh
        (sampleRequest "GET" "/api/widgets/42") (0, [])
      = some (⟨true, 204, goStr "\n"⟩,
          (16, [Event.findHandler (goStr "/widgets/42"), Event.Handle 0,
            Event.Delete (goStr "42") []])) :=
  ⟨handle_middleware_pass (fun p => p) (fun _ => sampleRoot) (goStr "/api")
      [passing, passing] getHttpError ResponseWriter.fresh ResponseWriter.fresh
      (sampleRequest "GET" "/api/widgets/42") (sampleRequest "GET" "/api/widgets/42")
      sampleHandler (goStr "42") [] 0 0 20
      (by decide) rfl
      (ChainPasses.cons rfl (ChainPasses.cons rfl (ChainPasses.nil _ _ 20))),
    handle_middleware_pass (fun p => p) (fun _ => sampleRoot) (goStr "/api")
      [rewriting] getHttpError ResponseWriter.fresh ResponseWriter.fresh
      (sampleRequest "GET" "/api/widgets/42")
      { sampleRequest "GET" "/api/widgets/42" with Method := goStr "DELETE", Body := [] }
      sampleHandler (goStr "42") [] 0 0 10
      (by decide) rfl (ChainPasses.cons rfl (ChainPasses.nil _ _ 10))⟩

/-- C9, as stated, fails: for a path the tree does not know, the body of the 404
response is not empty; it is the line with the default message of the status. -/
theorem handle_not_found_body_not_empty :
    (sampleRoot.findHandler (goStr "/gadgets") 0).1.1.isNone = true
    ∧ (sampleAPI []).handle getHttpError ResponseWriter.fresh
        (sampleRequest "GET" "/api/gadgets") 0
      = some (⟨true, 404, goStr "Not Found\n"⟩, 0)
    ∧ goStr "Not Found\n" ≠ calavera.EmptyBody := by
  refine ⟨by rfl, by rfl, by decide⟩

/-- C9, amended: when the tree returns no handler, `handle` sends status 404 and, as
the body, the line with the default message that `getHttpError` makes for 404; the
payload it hands to the encoder is empty and it hands over no error, and the body sent
is never empty. -/
theorem handle_not_found {σ : Type} (api : NetHTTP σ) (g : Int → GoError) (r : Request)
    (path : GoString) (id : ResourceID) (parentIds : List ResourceID) (s s1 : σ)
    (hlen : (r.Path.length : Int) > api.prefixLen + 1)
    (hslice : sliceFrom r.Path api.prefixLen = some path)
    (hfind : api.root.findHandler path s = ((none, id, parentIds), s1)) :
    api.handle g ResponseWriter.fresh r s
      = some ((api.sendResponse g ResponseWriter.fresh 404 calavera.EmptyBody none).1, s1)
    ∧ (api.sendResponse g ResponseWriter.fresh 404 calavera.EmptyBody none).1
      = ⟨true, 404, (g 404).Error ++ [10]⟩
    ∧ (api.sendResponse g ResponseWriter.fresh 404 calavera.EmptyBody none).1.Body ≠ [] := by
  have hsend := sendResponse_default_fresh api g 404 calavera.EmptyBody (by decide)
  refine ⟨?_, hsend, ?_⟩
  · simp only [NetHTTP.handle, hlen, hslice, hfind, if_true]
  · rw [hsend]
    simp

/-- C9, amended, at a concrete input: `/api/gadgets` is not known to the sample tree. -/
theorem handle_not_found_witness :
    (sampleAPI []).handle getHttpError ResponseWriter.fresh
        (sampleRequest "GET" "/api/gadgets") 0
      = some ((NetHTTP.sendResponse (sampleAPI []) getHttpError ResponseWriter.fresh 404
          calavera.EmptyBody none).1, 0) :=
  (handle_not_found (sampleAPI []) getHttpError (sampleRequest "GET" "/api/gadgets")
    (goStr "/gadgets") (goStr "") [] 0 0 (by decide) (by decide) rfl).1

/-- C10: for an API whose `prefixLen` is the length of its prefix, as `NewNetHTTP` sets
it: a request whose path has at most `prefixLen + 1` bytes, such as the prefix
itself or the prefix and one more byte, is answered with status 404 and neither the
tree nor a middleware nor a handler is called (the log and the state are as before);
for a longer path the slice `path[prefixLen:]` does not panic, has at least two bytes,
and is what `findHandler` is called with, as the first call of the run. -/
theorem handle_short_path {σ : Type} (api : NetHTTP σ) (g : Int → GoError) (r : Request)
    (c : UInt8) (s : σ) (t : List Event)
    (hinv : api.prefixLen = (api.pathPrefix.length : Int)) :
    ((r.Path.length : Int) ≤ api.prefixLen + 1 →
      (spyAPI api).handle g ResponseWriter.fresh r (s, t)
        = some (⟨true, 404, (g 404).Error ++ [10]⟩, (s, t)))
    ∧ (r.Path = api.pathPrefix ∨ r.Path = api.pathPrefix ++ [c] →
      (r.Path.length : Int) ≤ api.prefixLen + 1)
    ∧ ((r.Path.length : Int) > api.prefixLen + 1 →
      ∃ path, sliceFrom r.Path api.prefixLen = some path ∧ 2 ≤ path.length
        ∧ ∃ w1 s1 t1, (spyAPI api).handle g ResponseWriter.fresh r (s, t)
            = some (w1, (s1, t ++ Event.findHandler path :: t1))) := by
  refine ⟨?_, ?_, ?_⟩
  · intro hshort
    have hnot : ¬ ((r.Path.length : Int) > api.prefixLen + 1) := by omega
    have hsend := sendResponse_default_fresh (spyAPI api) g 404 calavera.EmptyBody (by decide)
    simp only [NetHTTP.handle, spyAPI, hnot, if_false]
    simp only [spyAPI] at hsend
    rw [hsend]
  · intro hp
    rcases hp with hp | hp
    · rw [hp, hinv]; omega
    · rw [hp, hinv]; simp
  · intro hlong
    have hle : api.prefixLen ≤ (r.Path.length : Int) := by omega
    have h0 : 0 ≤ api.prefixLen := by rw [hinv]; omega
    have hslice : sliceFrom r.Path api.prefixLen = some (r.Path.drop api.prefixLen.toNat) := by
      simp [sliceFrom, h0, hle]
    refine ⟨r.Path.drop api.prefixLen.toNat, hslice, ?_, ?_⟩
    · rw [List.length_drop]; omega
    · have hr : (spyAPI api).root = spyRoot api.root := rfl
      have hp : (spyAPI api).prefixLen = api.prefixLen := rfl
      have hm : (spyAPI api).middleware = spyFrom 0 api.middleware := rfl
      rcases hf : api.root.findHandler (r.Path.drop api.prefixLen.toNat) s with
        ⟨⟨ho, id, parentIds⟩, s1⟩
      cases ho with
      | none =>
        refine ⟨((spyAPI api).sendResponse g ResponseWriter.fresh http.StatusNotFound
          calavera.EmptyBody none).1, s1, [], ?_⟩
        simp only [NetHTTP.handle, hr, hp, spyRoot, hlong, hslice, hf, if_true,
          Option.map_none']
      | some h =>
        obtain ⟨ta, hta⟩ := applyMiddleware_spy_log api.middleware 0 ResponseWriter.fresh r s1
          (t ++ [Event.findHandler (r.Path.drop api.prefixLen.toNat)])
        rcases hmw : NetHTTP.applyMiddleware ResponseWriter.fresh r (spyFrom 0 api.middleware)
            (s1, t ++ [Event.findHandler (r.Path.drop api.prefixLen.toNat)]) with
          ⟨⟨eo, w2, r2⟩, s2, t2⟩
        rw [hmw] at hta
        simp only at hta
        subst hta
        cases eo with
        | some e =>
          refine ⟨((spyAPI api).sendResponse g w2
            http.StatusInternalServerError calavera.EmptyBody e).1, s2, ta, ?_⟩
          simp only [NetHTTP.handle, hr, hp, hm, spyRoot, hlong, hslice, hf, if_true,
            Option.map_some', hmw, List.append_assoc, List.singleton_append]
        | none =>
          obtain ⟨tb, htb⟩ := handleResource_spy_log (spyAPI api) r2.Method id parentIds r2 h s2
            (t ++ [Event.findHandler (r.Path.drop api.prefixLen.toNat)] ++ ta)
          rcases hres : NetHTTP.handleResource (spyAPI api) r2.Method id parentIds r2
              (spyHandler h)
              (s2, t ++ [Event.findHandler (r.Path.drop api.prefixLen.toNat)] ++ ta) with
            ⟨⟨code, body, err⟩, s3, t3⟩
          rw [hres] at htb
          simp only at htb
          subst htb
          refine ⟨((spyAPI api).sendResponse g w2 code body err).1, s3,
            ta ++ tb, ?_⟩
          simp only [List.append_assoc, List.singleton_append] at hres
          simp only [NetHTTP.handle, hr, hp, hm, spyRoot, hlong, hslice, hf, if_true,
            Option.map_some', hmw, hres, List.append_assoc, List.singleton_append]
          rfl

/-- C10, at concrete inputs: `/api/` is answered with 404 and nothing is called;
for `/api/widgets` the tree is called with `/widgets`. -/
theorem handle_short_path_witness :
    (spyAPI (sampleAPI [passing])).handle getHttpError ResponseWriter.fresh
        (sampleRequest "GET" "/api/") (0, [])
      = some (⟨true, 404, goStr "Not Found\n"⟩, (0, []))
    ∧ ∃ path, sliceFrom (goStr "/api/widgets") 4 = some path ∧ 2 ≤ path.length
        ∧ ∃ w1 s1 t1, (spyAPI (sampleAPI [passing])).handle getHttpError ResponseWriter.fresh
            (sampleRequest "GET" "/api/widgets") (0, [])
          = some (w1, (s1, [] ++ Event.findHandler path :: t1)) :=
  ⟨(handle_short_path (sampleAPI [passing]) getHttpError (sampleRequest "GET" "/api/") 47 0 []
      (by decide)).1 (by decide),
    (handle_short_path (sampleAPI [passing]) getHttpError (sampleRequest "GET" "/api/widgets")
      47 0 [] (by decide)).2.2 (by decide)⟩

end Rest
